import Mathlib

/-!
Verification development for the MapMonkey orchestration core.

The definitions below are a shallow embedding of the Python sources:
`state_manager.py` (checkpointed run state with throttled atomic flushes),
`storage_manager.py` (the deduplicating business store) and
`orchestrator.py` (worker loop and restart logic).  Machine-level details
that the properties do not depend on (wall-clock floats, JSON text
positions, the browser session) are modelled by explicit parameters:
every call that reads the clock takes a `now : Nat` argument, and the
filesystem effect of a flush is modelled as an explicit operation list.
-/

namespace MapMonkey

/-- Python str.strip(): drop whitespace from both ends (written over the
character list so that it evaluates by kernel reduction). -/
def stripString (s : String) : String :=
  String.mk
    (((s.data.dropWhile Char.isWhitespace).reverse.dropWhile
        Char.isWhitespace).reverse)

/-- Python str.lower() (written over the character list so that it
evaluates by kernel reduction). -/
def lowerString (s : String) : String :=
  String.mk (s.data.map Char.toLower)

/-- Scalar values stored in the JSON-like dictionaries of the checkpoint
document (event payloads, contexts). -/
inductive JVal where
  | str (s : String)
  | nat (n : Nat)
  | bool (b : Bool)
  | null
deriving Repr, DecidableEq

/-- A Python dict modelled as an insertion-ordered association list with
unique keys. -/
abbrev Dict := List (String × JVal)

/-- Python dict assignment `d[k] = v`: replace the value in place if the
key is present, otherwise append the pair. -/
def dset : Dict → String → JVal → Dict
  | [], k, v => [(k, v)]
  | kv :: rest, k, v =>
      if kv.1 == k then (k, v) :: rest else kv :: dset rest k v

/-- Python dict lookup `d.get(k)`. -/
def dget : Dict → String → Option JVal
  | [], _ => none
  | kv :: rest, k => if kv.1 == k then some kv.2 else dget rest k

/-- Python `d.update(ctx)`: fold the entries of `ctx` into `d` in order. -/
def dupdate (d : Dict) (ctx : Dict) : Dict :=
  ctx.foldl (fun acc kv => dset acc kv.1 kv.2) d

/-- Per-worker assignment entry of the checkpoint document
(`assign_worker` in `state_manager.py`). -/
structure WorkerInfo where
  city : String
  term : String
  assigned_at : Nat
  heartbeat : Nat
deriving Repr, DecidableEq

/-- The shared `batch` sub-document of the checkpoint
(`update_batch` / `clear_batch` in `state_manager.py`). -/
structure Batch where
  fill : Nat
  total : Nat
  worker : Option String
  updated_at : Option Nat
deriving Repr, DecidableEq

/-- Aggregate metrics of the checkpoint document. -/
structure Metrics where
  businesses_saved : Nat
  per_city : List (String × Nat)
  per_query : List (String × Nat)
  per_worker : List (String × Nat)
deriving Repr, DecidableEq

/-- The checkpoint document (`run_state.json`), with the keys that
`StateManager.__init__` and `load_state` guarantee to be present. -/
structure RunState where
  city_index : Nat
  term_index : Nat
  total_cities : Nat
  total_terms : Nat
  overall_progress : Nat
  overall_total : Nat
  current_city : Option String
  workers : List (String × WorkerInfo)
  batch : Batch
  events : List Dict
  alerts : List Dict
  metrics : Metrics
  recent_businesses : List Dict
deriving Repr, DecidableEq

/-- The `StateManager` object of `state_manager.py`.  `flush_attempts`
and `flush_writes` are observation counters of the model: the former
counts calls of `_maybe_flush_locked`, the latter counts the calls that
actually wrote the file. -/
structure StateManager where
  state : RunState
  flush_interval : Nat
  max_events : Nat
  max_recent : Nat
  dirty : Bool
  last_flush : Nat
  flush_attempts : Nat
  flush_writes : Nat
deriving Repr, DecidableEq

/-- `StateManager._maybe_flush_locked`: skip unless forced or the
document is dirty and the flush interval has elapsed; on a write, clear
the dirty flag and stamp the flush time. -/
def maybe_flush_locked (m : StateManager) (now : Nat) (force : Bool) : StateManager :=
  if !m.dirty && !force then
    { m with flush_attempts := m.flush_attempts + 1 }
  else if !force && decide (now - m.last_flush < m.flush_interval) then
    { m with flush_attempts := m.flush_attempts + 1 }
  else
    { m with flush_attempts := m.flush_attempts + 1, dirty := false,
             last_flush := now, flush_writes := m.flush_writes + 1 }

/-- Association-list update for the `workers` map (Python dict keyed by
`str(worker_id)`). -/
def wset (ws : List (String × WorkerInfo)) (k : String) (v : WorkerInfo) :
    List (String × WorkerInfo) :=
  if ws.any (fun kv => kv.1 == k) then
    ws.map (fun kv => if kv.1 == k then (k, v) else kv)
  else ws ++ [(k, v)]

/-- `workers.pop(str(worker_id), None)`. -/
def wremove : List (String × WorkerInfo) → String → List (String × WorkerInfo)
  | [], _ => []
  | kv :: rest, k =>
      if kv.1 == k then wremove rest k else kv :: wremove rest k

/-- `workers.get(str(worker_id))`. -/
def wget : List (String × WorkerInfo) → String → Option WorkerInfo
  | [], _ => none
  | kv :: rest, k => if kv.1 == k then some kv.2 else wget rest k

/-- `StateManager.assign_worker`. -/
def assign_worker (m : StateManager) (worker_id : Nat) (city term : String)
    (now : Nat) : StateManager :=
  let st := { m.state with
    workers := wset m.state.workers (toString worker_id) ⟨city, term, now, now⟩ }
  maybe_flush_locked { m with state := st, dirty := true } now false

/-- `StateManager.clear_worker`. -/
def clear_worker (m : StateManager) (worker_id : Nat) (now : Nat) : StateManager :=
  let st := { m.state with
    workers := wremove m.state.workers (toString worker_id) }
  maybe_flush_locked { m with state := st, dirty := true } now false

/-- `StateManager.worker_heartbeat`: a no-op when the worker is not
present. -/
def worker_heartbeat (m : StateManager) (worker_id : Nat) (now : Nat) : StateManager :=
  match wget m.state.workers (toString worker_id) with
  | none => m
  | some info =>
      let st := { m.state with
        workers := wset m.state.workers (toString worker_id)
          { info with heartbeat := now } }
      maybe_flush_locked { m with state := st, dirty := true } now false

/-- `StateManager.update_batch`: overwrite the shared batch fields and
refresh the worker's heartbeat when it is present. -/
def update_batch (m : StateManager) (worker_id fill total now : Nat) : StateManager :=
  let b : Batch := ⟨fill, total, some (toString worker_id), some now⟩
  let ws := match wget m.state.workers (toString worker_id) with
    | none => m.state.workers
    | some info => wset m.state.workers (toString worker_id)
        { info with heartbeat := now }
  maybe_flush_locked
    { m with state := { m.state with batch := b, workers := ws }, dirty := true }
    now false

/-- `StateManager.clear_batch`: reset the batch only when its `worker`
field names this worker; otherwise do nothing at all. -/
def clear_batch (m : StateManager) (worker_id : Nat) (now : Nat) : StateManager :=
  if m.state.batch.worker == some (toString worker_id) then
    let b := { m.state.batch with fill := 0, total := 0, worker := none }
    maybe_flush_locked
      { m with state := { m.state with batch := b }, dirty := true } now false
  else m

/-- `StateManager.increment_term`: advance `term_index` and recompute
`overall_progress = city_index * total_terms + term_index`. -/
def increment_term (m : StateManager) (now : Nat) : StateManager :=
  let t := m.state.term_index + 1
  let st := { m.state with
    term_index := t,
    overall_progress := m.state.city_index * m.state.total_terms + t }
  maybe_flush_locked { m with state := st, dirty := true } now false

/-- `StateManager.next_city`: move to the given city index, reset
`term_index`, clear `current_city`, recompute progress and force an
immediate flush. -/
def next_city (m : StateManager) (city_index : Nat) (now : Nat) : StateManager :=
  let st := { m.state with
    city_index := city_index,
    term_index := 0,
    current_city := none,
    overall_progress := city_index * m.state.total_terms }
  maybe_flush_locked { m with state := st, dirty := true } now true

/-- `StateManager.start_city`: record the city index and name; the flush
is the ordinary throttled one and `term_index` is left untouched. -/
def start_city (m : StateManager) (city_index : Nat) (city_name : String)
    (now : Nat) : StateManager :=
  let st := { m.state with
    city_index := city_index,
    current_city := some city_name }
  maybe_flush_locked { m with state := st, dirty := true } now false

/-- The payload built at the top of `StateManager.record_event`: level,
message and timestamp, then the optional worker id, then the entries of
a non-empty context merged over them. -/
def event_payload (level message : String) (now : Nat) (worker_id : Option Nat)
    (ctx : Dict) : Dict :=
  let p : Dict := [("level", JVal.str level), ("message", JVal.str message),
                   ("timestamp", JVal.nat now)]
  let p := match worker_id with
    | some w => p ++ [("worker", JVal.str (toString w))]
    | none => p
  if ctx.isEmpty then p else dupdate p ctx

/-- The trimming of `record_event`: `del xs[: len(xs) - cap]` when the
length exceeds the cap, keeping the most recent entries. -/
def trim_cap (cap : Nat) (xs : List Dict) : List Dict :=
  if cap < xs.length then xs.drop (xs.length - cap) else xs

/-- Levels that `record_event` mirrors into the alerts list
(`level.lower() in {"error", "warning"}`). -/
def is_alert_level (level : String) : Bool :=
  lowerString level == "error" || lowerString level == "warning"

/-- `StateManager.record_event`: append the payload to `events`, mirror
error/warning payloads into `alerts`, trim both to the cap, mark dirty
and attempt a throttled flush. -/
def record_event (m : StateManager) (level message : String)
    (worker_id : Option Nat) (ctx : Dict) (now : Nat) : StateManager :=
  let p := event_payload level message now worker_id ctx
  let evs := trim_cap m.max_events (m.state.events ++ [p])
  let als := if is_alert_level level then
      trim_cap m.max_events (m.state.alerts ++ [p])
    else m.state.alerts
  maybe_flush_locked
    { m with state := { m.state with events := evs, alerts := als }, dirty := true }
    now false

/-- A concrete mid-run manager used to exercise start_city: five terms
already done in the current city, last flush 1 time unit ago with a
10 unit flush interval. -/
def c4_mgr : StateManager :=
  { state :=
      { city_index := 0, term_index := 5, total_cities := 3, total_terms := 7,
        overall_progress := 5, overall_total := 21, current_city := some "Reno",
        workers := [], batch := ⟨0, 0, none, none⟩, events := [], alerts := [],
        metrics := ⟨0, [], [], []⟩, recent_businesses := [] },
    flush_interval := 10, max_events := 100, max_recent := 50,
    dirty := false, last_flush := 100, flush_attempts := 0, flush_writes := 0 }

/-- One call of the progress-mutating checkpoint operations. -/
inductive ProgOp where
  | incr (now : Nat)
  | next (i : Nat) (now : Nat)
deriving Repr, DecidableEq

/-- Apply one increment_term / next_city call. -/
def applyProgOp (m : StateManager) : ProgOp → StateManager
  | .incr now => increment_term m now
  | .next i now => next_city m i now

/-- Apply a whole call sequence. -/
def runProgOps (m : StateManager) (ops : List ProgOp) : StateManager :=
  ops.foldl applyProgOp m

/-- Validity of the next call, as the orchestrator issues it:
increment_term only while terms of the current city remain, next_city
only to move the city index forward. -/
def progOpValid (m : StateManager) : ProgOp → Bool
  | .incr _ => decide (m.state.term_index < m.state.total_terms)
  | .next i _ => decide (m.state.city_index < i)

/-- Validity of a whole call sequence. -/
def progOpsValid (m : StateManager) : List ProgOp → Bool
  | [] => true
  | op :: rest => progOpValid m op && progOpsValid (applyProgOp m op) rest

/-- The state of a manager whose progress field agrees with its indices,
as established by the orchestrator's startup recomputation. -/
def progConsistent (m : StateManager) : Prop :=
  m.state.overall_progress =
      m.state.city_index * m.state.total_terms + m.state.term_index ∧
  m.state.term_index ≤ m.state.total_terms

instance (m : StateManager) : Decidable (progConsistent m) := by
  unfold progConsistent; exact instDecidableAnd

/-- A concrete manager for the C6 counterexample: one city of one term,
progress consistent. -/
def c6_mgr : StateManager :=
  { state :=
      { city_index := 0, term_index := 0, total_cities := 2, total_terms := 1,
        overall_progress := 0, overall_total := 2, current_city := none,
        workers := [], batch := ⟨0, 0, none, none⟩, events := [], alerts := [],
        metrics := ⟨0, [], [], []⟩, recent_businesses := [] },
    flush_interval := 1, max_events := 100, max_recent := 50,
    dirty := false, last_flush := 0, flush_attempts := 0, flush_writes := 0 }

/-- One recorded event of a record_event call sequence. -/
structure EventIn where
  level : String
  message : String
  worker : Option Nat
  ctx : Dict
  now : Nat
deriving Repr, DecidableEq

/-- One record_event call with the fields of an EventIn. -/
def record_one (m : StateManager) (e : EventIn) : StateManager :=
  record_event m e.level e.message e.worker e.ctx e.now

/-- A whole record_event call sequence. -/
def record_events (m : StateManager) (ins : List EventIn) : StateManager :=
  ins.foldl record_one m

/-- The payload a given EventIn stores. -/
def payload_of (e : EventIn) : Dict :=
  event_payload e.level e.message e.now e.worker e.ctx

/-- A manager with an event cap of 1 and empty logs, for the C7 witness. -/
def c7_mgr : StateManager :=
  { state :=
      { city_index := 0, term_index := 0, total_cities := 1, total_terms := 1,
        overall_progress := 0, overall_total := 1, current_city := none,
        workers := [], batch := ⟨0, 0, none, none⟩, events := [], alerts := [],
        metrics := ⟨0, [], [], []⟩, recent_businesses := [] },
    flush_interval := 1, max_events := 1, max_recent := 50,
    dirty := false, last_flush := 0, flush_attempts := 0, flush_writes := 0 }

/-- Two events, the second an error, exceeding the cap of c7_mgr. -/
def c7_ins : List EventIn :=
  [⟨"info", "one", none, [], 1⟩, ⟨"error", "two", some 0, [], 2⟩]

/-- A manager with the default caps for the C10 witness. -/
def c10_mgr : StateManager :=
  { state :=
      { city_index := 0, term_index := 0, total_cities := 1, total_terms := 1,
        overall_progress := 0, overall_total := 1, current_city := none,
        workers := [], batch := ⟨0, 0, none, none⟩, events := [], alerts := [],
        metrics := ⟨0, [], [], []⟩, recent_businesses := [] },
    flush_interval := 1, max_events := 100, max_recent := 50,
    dirty := false, last_flush := 0, flush_attempts := 0, flush_writes := 0 }

/-- Render one scalar value as JSON text. -/
def renderJVal : JVal → String
  | .str s => "\"" ++ s ++ "\""
  | .nat n => toString n
  | .bool b => toString b
  | .null => "null"

/-- Render a payload dictionary as JSON text. -/
def renderDict (d : Dict) : String :=
  "\x7b" ++ String.intercalate ", "
    (d.map (fun kv => "\"" ++ kv.1 ++ "\": " ++ renderJVal kv.2)) ++ "\x7d"

/-- Render an optional string field. -/
def renderOptStr : Option String → String
  | none => "null"
  | some s => "\"" ++ s ++ "\""

/-- Render an optional numeric field. -/
def renderOptNat : Option Nat → String
  | none => "null"
  | some n => toString n

/-- Render one worker-assignment entry. -/
def renderWorkerInfo (wi : WorkerInfo) : String :=
  "\x7b\"city\": \"" ++ wi.city ++ "\", \"term\": \"" ++ wi.term ++
    "\", \"assigned_at\": " ++ toString wi.assigned_at ++
    ", \"heartbeat\": " ++ toString wi.heartbeat ++ "\x7d"

/-- Render the shared batch sub-document. -/
def renderBatch (b : Batch) : String :=
  "\x7b\"fill\": " ++ toString b.fill ++ ", \"total\": " ++ toString b.total ++
    ", \"worker\": " ++ renderOptStr b.worker ++
    ", \"updated_at\": " ++ renderOptNat b.updated_at ++ "\x7d"

/-- Render one counter table of the metrics. -/
def renderCounts (xs : List (String × Nat)) : String :=
  "\x7b" ++ String.intercalate ", "
    (xs.map (fun kv => "\"" ++ kv.1 ++ "\": " ++ toString kv.2)) ++ "\x7d"

/-- Render the metrics sub-document. -/
def renderMetrics (ms : Metrics) : String :=
  "\x7b\"businesses_saved\": " ++ toString ms.businesses_saved ++
    ", \"per_city\": " ++ renderCounts ms.per_city ++
    ", \"per_query\": " ++ renderCounts ms.per_query ++
    ", \"per_worker\": " ++ renderCounts ms.per_worker ++ "\x7d"

/-- The serialized checkpoint document as the chunk sequence json.dump
streams into the file: one chunk per top-level entry. -/
def serializeChunks (st : RunState) : List String :=
  ["\x7b ",
   "\"city_index\": " ++ toString st.city_index ++ ", ",
   "\"term_index\": " ++ toString st.term_index ++ ", ",
   "\"total_cities\": " ++ toString st.total_cities ++ ", ",
   "\"total_terms\": " ++ toString st.total_terms ++ ", ",
   "\"overall_progress\": " ++ toString st.overall_progress ++ ", ",
   "\"overall_total\": " ++ toString st.overall_total ++ ", ",
   "\"current_city\": " ++ renderOptStr st.current_city ++ ", ",
   "\"workers\": \x7b" ++ String.intercalate ", "
      (st.workers.map (fun kv => "\"" ++ kv.1 ++ "\": " ++ renderWorkerInfo kv.2)) ++
      "\x7d, ",
   "\"batch\": " ++ renderBatch st.batch ++ ", ",
   "\"events\": [" ++ String.intercalate ", " (st.events.map renderDict) ++ "], ",
   "\"alerts\": [" ++ String.intercalate ", " (st.alerts.map renderDict) ++ "], ",
   "\"metrics\": " ++ renderMetrics st.metrics ++ ", ",
   "\"recent_businesses\": [" ++
      String.intercalate ", " (st.recent_businesses.map renderDict) ++ "]",
   " \x7d"]

/-- The whole serialized checkpoint document. -/
def serializeState (st : RunState) : String :=
  String.join (serializeChunks st)

/-- A filesystem operation performed by a writing flush: truncate-open
the temporary file, stream one chunk into it, or atomically rename it
over the checkpoint path (os.replace). -/
inductive FsOp where
  | openTmp
  | writeTmp (chunk : String)
  | replaceTmp
deriving Repr, DecidableEq

/-- The two files a flush touches: the checkpoint path and the
temporary path; none when a file does not exist. -/
structure Fs where
  checkpoint : Option String
  tmp : Option String
deriving Repr, DecidableEq

/-- Apply one filesystem operation. -/
def applyFsOp (fs : Fs) : FsOp → Fs
  | .openTmp => { fs with tmp := some "" }
  | .writeTmp c => { fs with tmp := some ((fs.tmp.getD "") ++ c) }
  | .replaceTmp => { checkpoint := fs.tmp, tmp := none }

/-- Apply a sequence of filesystem operations. -/
def runFsOps (fs : Fs) (ops : List FsOp) : Fs :=
  ops.foldl applyFsOp fs

/-- The operation sequence of one write: open the temporary file, stream
the whole serialized document, then atomically replace the checkpoint. -/
def flushFsOps (st : RunState) : List FsOp :=
  FsOp.openTmp :: (serializeChunks st).map FsOp.writeTmp ++ [FsOp.replaceTmp]

/-- The filesystem effect of `_maybe_flush_locked`: no operation at all
when the throttle skips, otherwise the full write sequence. -/
def maybe_flush_fs (m : StateManager) (now : Nat) (force : Bool) : List FsOp :=
  if !m.dirty && !force then []
  else if !force && decide (now - m.last_flush < m.flush_interval) then []
  else flushFsOps m.state

/-- One business record (`BusinessRecord` in `storage_manager.py`).
The floating-point rating and coordinates are modelled as rationals;
they play no role in record identity. -/
structure BusinessRecord where
  name : String
  address : String
  website : String
  phone : String
  reviews_average : Option Rat
  query : String
  latitude : Option Rat
  longitude : Option Rat
deriving Repr, DecidableEq

/-- The identity key of a record: lowercased stripped name and
address. -/
def record_key (r : BusinessRecord) : String × String :=
  (lowerString (stripString r.name), lowerString (stripString r.address))

/-- A record passes the blank test of filter_new when both its stripped
name and its stripped address are non-empty. -/
def record_valid (r : BusinessRecord) : Bool :=
  !(stripString r.name == "") && !(stripString r.address == "")

/-- Storage engines whose keys are cheap to preload eagerly. -/
def preload_storages : List String := ["sqlite", "csv"]

/-- The `BusinessStore` object: the chosen backend name, the raw
(name, address) rows present in the backend table, and the in-memory
dedupe key set. -/
structure BusinessStore where
  storage : String
  conn_rows : List (String × String)
  seen_keys : List (String × String)
deriving Repr, DecidableEq

/-- `BusinessStore.__init__`: `get_storage` lowercases the backend name
and the normalized key set is preloaded only for the cheap backends
(`load_business_keys` strips and lowercases every stored row). -/
def BusinessStore.make (storage : String) (rows : List (String × String)) :
    BusinessStore :=
  { storage := lowerString storage,
    conn_rows := rows,
    seen_keys :=
      if (preload_storages.contains (lowerString storage)) then
        rows.map (fun p =>
          (lowerString (stripString p.1), lowerString (stripString p.2)))
      else [] }

/-- `self._preload_complete`. -/
def preload_complete (s : BusinessStore) : Bool :=
  preload_storages.contains s.storage

/-- `BusinessStore._exists_in_store`: a raw (unstripped) point lookup
for postgres and cassandra, False for every other backend. -/
def exists_in_store (s : BusinessStore) (r : BusinessRecord) : Bool :=
  if s.storage == "postgres" || s.storage == "cassandra" then
    decide ((r.name, r.address) ∈ s.conn_rows)
  else false

/-- `BusinessStore.filter_new`, with the store threaded explicitly and
a trace of the backend point lookups performed (one normalized key per
lookup).  A record is skipped when blank or when its key is already in
the dedupe set; on a lazy backend an unseen key triggers one point
lookup whose outcome — hit or miss — is memoized into the set. -/
def filter_new_aux (s : BusinessStore) :
    List BusinessRecord →
      List BusinessRecord × BusinessStore × List (String × String)
  | [] => ([], s, [])
  | r :: rest =>
      if !(record_valid r) then filter_new_aux s rest
      else if decide (record_key r ∈ s.seen_keys) then filter_new_aux s rest
      else if !(preload_complete s) then
        if exists_in_store s r then
          ((filter_new_aux
              { s with seen_keys := s.seen_keys ++ [record_key r] } rest).1,
           (filter_new_aux
              { s with seen_keys := s.seen_keys ++ [record_key r] } rest).2.1,
           record_key r ::
             (filter_new_aux
               { s with seen_keys := s.seen_keys ++ [record_key r] } rest).2.2)
        else
          (r :: (filter_new_aux
              { s with seen_keys := s.seen_keys ++ [record_key r] } rest).1,
           (filter_new_aux
              { s with seen_keys := s.seen_keys ++ [record_key r] } rest).2.1,
           record_key r ::
             (filter_new_aux
               { s with seen_keys := s.seen_keys ++ [record_key r] } rest).2.2)
      else
        (r :: (filter_new_aux
            { s with seen_keys := s.seen_keys ++ [record_key r] } rest).1,
         (filter_new_aux
            { s with seen_keys := s.seen_keys ++ [record_key r] } rest).2.1,
         (filter_new_aux
            { s with seen_keys := s.seen_keys ++ [record_key r] } rest).2.2)

/-- `filter_new`: the fresh records and the mutated store. -/
def filter_new (s : BusinessStore) (rs : List BusinessRecord) :
    List BusinessRecord × BusinessStore :=
  ((filter_new_aux s rs).1, (filter_new_aux s rs).2.1)

/-- `save_new` with the lookup trace: filter, then one batched upsert
of the fresh rows into the backend; returns exactly the fresh subset. -/
def save_new_aux (s : BusinessStore) (rs : List BusinessRecord) :
    List BusinessRecord × BusinessStore × List (String × String) :=
  if (filter_new_aux s rs).1.isEmpty then
    ([], (filter_new_aux s rs).2.1, (filter_new_aux s rs).2.2)
  else
    ((filter_new_aux s rs).1,
     { (filter_new_aux s rs).2.1 with
        conn_rows := (filter_new_aux s rs).2.1.conn_rows ++
          (filter_new_aux s rs).1.map (fun r => (r.name, r.address)) },
     (filter_new_aux s rs).2.2)

/-- `save_new`: the inserted records and the mutated store. -/
def save_new (s : BusinessStore) (rs : List BusinessRecord) :
    List BusinessRecord × BusinessStore :=
  ((save_new_aux s rs).1, (save_new_aux s rs).2.1)

/-- One call against the store during its lifetime. -/
inductive StoreCall where
  | filter (rs : List BusinessRecord)
  | save (rs : List BusinessRecord)
deriving Repr, DecidableEq

/-- The effect of one store call. -/
def storeCallStep (s : BusinessStore) :
    StoreCall → List BusinessRecord × BusinessStore × List (String × String)
  | .filter rs => filter_new_aux s rs
  | .save rs => save_new_aux s rs

/-- Run a call sequence over the store's lifetime; collect each call's
returned record list and the concatenated backend lookup trace. -/
def run_store (s : BusinessStore) :
    List StoreCall →
      BusinessStore × List (List BusinessRecord) × List (String × String)
  | [] => (s, [], [])
  | c :: rest =>
      ((run_store (storeCallStep s c).2.1 rest).1,
       (storeCallStep s c).1 :: (run_store (storeCallStep s c).2.1 rest).2.1,
       (storeCallStep s c).2.2 ++ (run_store (storeCallStep s c).2.1 rest).2.2)

/-- The specification of filter_new from the claim: keep exactly the
records with non-blank name and address whose identity key is not yet
known, where known means in the key set or — for backends without eager
preload — present in the backend, and every processed valid key counts
as known for the records after it. -/
def filterNewSpec (s : BusinessStore) (keys : List (String × String)) :
    List BusinessRecord → List BusinessRecord
  | [] => []
  | r :: rest =>
      if record_valid r then
        if decide (record_key r ∈ keys) ||
            (!(preload_complete s) && exists_in_store s r) then
          filterNewSpec s (keys ++ [record_key r]) rest
        else r :: filterNewSpec s (keys ++ [record_key r]) rest
      else filterNewSpec s keys rest

/-- A lazy-backend store for the dedupe witnesses: postgres storage,
one raw row in the backend table, one key already in the dedupe set. -/
def dstore : BusinessStore :=
  { storage := "postgres",
    conn_rows := [("Seen Cafe", "1 Main St")],
    seen_keys := [("old bar", "2 oak ave")] }

/-- A batch with one valid new record, one record whose raw pair is in
the backend, one blank record, and a duplicate key of the first. -/
def dbatch : List BusinessRecord :=
  [⟨"New Biz", " Elm Rd ", "", "", none, "q", none, none⟩,
   ⟨"Seen Cafe", "1 Main St", "", "", none, "q", none, none⟩,
   ⟨"  ", "3 Pine", "", "", none, "q", none, none⟩,
   ⟨"new biz", "ELM RD", "", "", none, "q", none, none⟩]

/-- A store lifetime of one save and one filter of the same batch. -/
def dcalls : List StoreCall :=
  [StoreCall.save dbatch, StoreCall.filter dbatch]

/-- How one delegation to the scraping collaborator ends: it returns,
or it raises a non-cancellation exception carrying a message. -/
inductive ScrapeOutcome where
  | ok
  | fail (msg : String)
deriving Repr, DecidableEq

/-- The world one worker loop acts on: the shared state manager, the
processed-terms counter metric, and the slot's task fields. -/
structure WorkerWorld where
  mgr : StateManager
  terms_metric : Nat
  slot_term : Option String
  slot_heartbeat : Nat
deriving Repr, DecidableEq

/-- The search string built for a task. -/
def search_of (city term : String) : String :=
  stripString ("\"" ++ city ++ "\" " ++ term)

/-- The context the worker's on_event callback attaches when the scrape
raises: an empty dict filled by setdefault with city, term and query. -/
def worker_error_context (city term : String) : Dict :=
  [("city", JVal.str city), ("term", JVal.str term),
   ("query", JVal.str (search_of city term))]

/-- The payload of the error event recorded when a task raises msg. -/
def worker_error_payload (w : Nat) (city term msg : String) (now : Nat) : Dict :=
  event_payload "error" ("Error processing term: " ++ msg) now (some w)
    (worker_error_context city term)

/-- The finally block closing one task: clear the batch, clear the
worker, and advance the global term counter. -/
def task_cleanup (m : StateManager) (w : Nat) (now : Nat) : StateManager :=
  increment_term (clear_worker (clear_batch m w now) w now) now

/-- One iteration of the worker loop body for a dequeued term: assign
the task, run the collaborator (its state-manager effects abstracted as
eff), on a non-cancellation exception record the error event, then run
the finally block either way, count the term processed and idle the
slot. -/
def run_task (w : Nat) (city term : String) (eff : StateManager → StateManager)
    (res : ScrapeOutcome) (now : Nat) (world : WorkerWorld) : WorkerWorld :=
  { mgr := task_cleanup
      (match res with
        | .ok => eff (assign_worker world.mgr w city term now)
        | .fail msg =>
            record_event (eff (assign_worker world.mgr w city term now))
              "error" ("Error processing term: " ++ msg) (some w)
              (worker_error_context city term) now)
      w now,
    terms_metric := world.terms_metric + 1,
    slot_term := none, slot_heartbeat := now }

/-- The worker loop over the remaining queue: drain it term by term;
when the queue is empty clear the worker and batch state and idle the
slot. -/
def worker_loop (w : Nat) (city : String)
    (script : String → (StateManager → StateManager) × ScrapeOutcome)
    (now : Nat) : List String → WorkerWorld → WorkerWorld
  | [], world =>
      { world with
        mgr := clear_batch (clear_worker world.mgr w now) w now,
        slot_term := none, slot_heartbeat := now }
  | t :: rest, world =>
      worker_loop w city script now rest
        (run_task w city t (script t).1 (script t).2 now world)

/-- A supervised slot as restart_worker sees it. -/
structure SlotInfo where
  current_term : Option String
  last_heartbeat : Nat
deriving Repr, DecidableEq

/-- The orchestrator world restart_worker acts on: the city's term
queue, the slot table, the shared manager and the shutdown flag. -/
structure OrchWorld where
  queue : List String
  slots : List (Nat × SlotInfo)
  mgr : StateManager
  shutting_down : Bool
deriving Repr, DecidableEq

/-- `worker_slots.get(worker_id)`. -/
def slot_get : List (Nat × SlotInfo) → Nat → Option SlotInfo
  | [], _ => none
  | kv :: rest, k => if kv.1 == k then some kv.2 else slot_get rest k

/-- `worker_slots.pop(worker_id, None)`, run by the cancelled worker's
cleanup. -/
def slot_remove : List (Nat × SlotInfo) → Nat → List (Nat × SlotInfo)
  | [], _ => []
  | kv :: rest, k =>
      if kv.1 == k then slot_remove rest k else kv :: slot_remove rest k

/-- `worker_slots[worker_id] = slot`. -/
def slot_set (ss : List (Nat × SlotInfo)) (k : Nat) (v : SlotInfo) :
    List (Nat × SlotInfo) :=
  if ss.any (fun kv => kv.1 == k) then
    ss.map (fun kv => if kv.1 == k then (k, v) else kv)
  else ss ++ [(k, v)]

/-- The externally visible actions of a restart, in program order. -/
inductive OrchAction where
  | cancel (w : Nat)
  | enqueue (t : String)
  | warn
  | start (w : Nat)
deriving Repr, DecidableEq

/-- The context payload restart_worker records: city and reason, and the
term and query of the in-progress task when there is one. -/
def restart_context (city reason : String) (term : Option String) : Dict :=
  match term with
  | none => [("city", JVal.str city), ("reason", JVal.str reason)]
  | some t =>
      [("city", JVal.str city), ("reason", JVal.str reason),
       ("term", JVal.str t), ("query", JVal.str (search_of city t))]

/-- `restart_worker`: a no-op during shutdown; for a missing slot start
a fresh one unless the queue is empty; otherwise cancel the slot's task
— which runs the cancelled worker's cleanup (clear_batch, clear_worker,
slot removal, no term-counter advance) — then re-enqueue its in-progress
term if it held one, record the warning event and start the slot again.
The second component is the trace of actions in program order. -/
def restart_worker (world : OrchWorld) (w : Nat) (city reason : String)
    (now : Nat) : OrchWorld × List OrchAction :=
  if world.shutting_down then (world, [])
  else
    match slot_get world.slots w with
    | none =>
        if world.queue.isEmpty then (world, [])
        else
          ({ world with slots := slot_set world.slots w ⟨none, now⟩ },
           [OrchAction.start w])
    | some slot =>
        ({ world with
            queue := (match slot.current_term with
              | none => world.queue
              | some t => world.queue ++ [t]),
            slots := slot_set (slot_remove world.slots w) w ⟨none, now⟩,
            mgr := record_event
              (clear_worker (clear_batch world.mgr w now) w now)
              "warning"
              ("Restarting worker " ++ toString w ++ ": " ++ reason)
              (some w) (restart_context city reason slot.current_term) now },
         [OrchAction.cancel w] ++
           (match slot.current_term with
             | none => []
             | some t => [OrchAction.enqueue t]) ++
           [OrchAction.warn, OrchAction.start w])

/-- A concrete world for the restart witness: one other term queued,
slot 1 holding the in-progress term. -/
def rworld : OrchWorld :=
  { queue := ["bar"],
    slots := [(1, ⟨some "bakery", 10⟩)],
    mgr :=
      { state :=
          { city_index := 0, term_index := 0, total_cities := 1,
            total_terms := 2, overall_progress := 0, overall_total := 2,
            current_city := some "Reno", workers := [],
            batch := ⟨0, 0, none, none⟩, events := [], alerts := [],
            metrics := ⟨0, [], [], []⟩, recent_businesses := [] },
        flush_interval := 1, max_events := 100, max_recent := 50,
        dirty := false, last_flush := 0, flush_attempts := 0,
        flush_writes := 0 },
    shutting_down := false }

/-! ### Frame lemmas for the flush throttle and the state-manager methods -/

@[simp] theorem maybe_flush_locked_state (m : StateManager) (now : Nat) (force : Bool) :
    (maybe_flush_locked m now force).state = m.state := by
  unfold maybe_flush_locked
  split
  · rfl
  · split <;> rfl

@[simp] theorem maybe_flush_locked_max_events (m : StateManager) (now : Nat) (force : Bool) :
    (maybe_flush_locked m now force).max_events = m.max_events := by
  unfold maybe_flush_locked
  split
  · rfl
  · split <;> rfl

@[simp] theorem maybe_flush_locked_flush_interval (m : StateManager) (now : Nat) (force : Bool) :
    (maybe_flush_locked m now force).flush_interval = m.flush_interval := by
  unfold maybe_flush_locked
  split
  · rfl
  · split <;> rfl

theorem maybe_flush_locked_writes_force (m : StateManager) (now : Nat) (h : m.dirty = true) :
    (maybe_flush_locked m now true).flush_writes = m.flush_writes + 1 := by
  simp [maybe_flush_locked, h]

theorem assign_worker_state (m : StateManager) (w : Nat) (city term : String) (now : Nat) :
    (assign_worker m w city term now).state =
      { m.state with workers := wset m.state.workers (toString w) ⟨city, term, now, now⟩ } := by
  simp [assign_worker]

theorem clear_worker_state (m : StateManager) (w : Nat) (now : Nat) :
    (clear_worker m w now).state =
      { m.state with workers := wremove m.state.workers (toString w) } := by
  simp [clear_worker]

theorem clear_batch_state (m : StateManager) (w : Nat) (now : Nat) :
    (clear_batch m w now).state =
      if m.state.batch.worker == some (toString w) then
        { m.state with batch :=
            { m.state.batch with fill := 0, total := 0, worker := none } }
      else m.state := by
  unfold clear_batch
  split
  · rename_i h
    simp [h]
  · rename_i h
    simp [h]

theorem increment_term_state (m : StateManager) (now : Nat) :
    (increment_term m now).state =
      { m.state with
        term_index := m.state.term_index + 1,
        overall_progress :=
          m.state.city_index * m.state.total_terms + (m.state.term_index + 1) } := by
  simp [increment_term]

theorem next_city_state (m : StateManager) (i : Nat) (now : Nat) :
    (next_city m i now).state =
      { m.state with
        city_index := i,
        term_index := 0,
        current_city := none,
        overall_progress := i * m.state.total_terms } := by
  simp [next_city]

theorem start_city_state (m : StateManager) (i : Nat) (name : String) (now : Nat) :
    (start_city m i name now).state =
      { m.state with city_index := i, current_city := some name } := by
  simp [start_city]

theorem record_event_state (m : StateManager) (level message : String)
    (w : Option Nat) (ctx : Dict) (now : Nat) :
    (record_event m level message w ctx now).state =
      { m.state with
        events := trim_cap m.max_events
          (m.state.events ++ [event_payload level message now w ctx]),
        alerts := if is_alert_level level then
            trim_cap m.max_events
              (m.state.alerts ++ [event_payload level message now w ctx])
          else m.state.alerts } := by
  simp [record_event]

theorem clear_batch_max_events (m : StateManager) (w : Nat) (now : Nat) :
    (clear_batch m w now).max_events = m.max_events := by
  unfold clear_batch
  split <;> simp

theorem clear_worker_max_events (m : StateManager) (w : Nat) (now : Nat) :
    (clear_worker m w now).max_events = m.max_events := by
  simp [clear_worker]

theorem increment_term_max_events (m : StateManager) (now : Nat) :
    (increment_term m now).max_events = m.max_events := by
  simp [increment_term]

theorem record_event_max_events (m : StateManager) (level message : String)
    (w : Option Nat) (ctx : Dict) (now : Nat) :
    (record_event m level message w ctx now).max_events = m.max_events := by
  simp [record_event]

/-! ### Claim C9: the frame effect of clear_batch -/

/-- Claim C9: clear_batch mutates the checkpoint document only when the
shared batch's worker field equals the string form of the worker id;
otherwise the manager (document, dirty flag, flush counters) is returned
completely unchanged.  When the field matches, fill and total are reset
to 0 and worker to none, and every other field of the document, the
batch's updated_at included, is unchanged. -/
theorem clear_batch_frame (m : StateManager) (w : Nat) (now : Nat) :
    (m.state.batch.worker ≠ some (toString w) → clear_batch m w now = m) ∧
    (m.state.batch.worker = some (toString w) →
      (clear_batch m w now).state =
        { m.state with batch :=
            { fill := 0, total := 0, worker := none,
              updated_at := m.state.batch.updated_at } }) := by
  constructor
  · intro h
    unfold clear_batch
    rw [if_neg]
    simp [h]
  · intro h
    rw [clear_batch_state]
    simp [h]

/-- Witness for claim C9 at concrete managers: one whose batch belongs
to worker 2 (so clearing worker 1 is a no-op) and the same manager
cleared by its own worker 2. -/
theorem clear_batch_frame_witness :
    clear_batch
        { state :=
            { city_index := 0, term_index := 0, total_cities := 1, total_terms := 1,
              overall_progress := 0, overall_total := 1, current_city := none,
              workers := [], batch := ⟨3, 9, some "2", some 77⟩, events := [],
              alerts := [], metrics := ⟨0, [], [], []⟩, recent_businesses := [] },
          flush_interval := 1, max_events := 100, max_recent := 50,
          dirty := false, last_flush := 0, flush_attempts := 0, flush_writes := 0 }
        1 5 =
      { state :=
          { city_index := 0, term_index := 0, total_cities := 1, total_terms := 1,
            overall_progress := 0, overall_total := 1, current_city := none,
            workers := [], batch := ⟨3, 9, some "2", some 77⟩, events := [],
            alerts := [], metrics := ⟨0, [], [], []⟩, recent_businesses := [] },
        flush_interval := 1, max_events := 100, max_recent := 50,
        dirty := false, last_flush := 0, flush_attempts := 0, flush_writes := 0 } ∧
    (clear_batch
        { state :=
            { city_index := 0, term_index := 0, total_cities := 1, total_terms := 1,
              overall_progress := 0, overall_total := 1, current_city := none,
              workers := [], batch := ⟨3, 9, some "2", some 77⟩, events := [],
              alerts := [], metrics := ⟨0, [], [], []⟩, recent_businesses := [] },
          flush_interval := 1, max_events := 100, max_recent := 50,
          dirty := false, last_flush := 0, flush_attempts := 0, flush_writes := 0 }
        2 5).state.batch = ⟨0, 0, none, some 77⟩ := by
  constructor
  · exact (clear_batch_frame _ 1 5).1 (by decide)
  · have h := (clear_batch_frame
      { state :=
          { city_index := 0, term_index := 0, total_cities := 1, total_terms := 1,
            overall_progress := 0, overall_total := 1, current_city := none,
            workers := [], batch := ⟨3, 9, some "2", some 77⟩, events := [],
            alerts := [], metrics := ⟨0, [], [], []⟩, recent_businesses := [] },
        flush_interval := 1, max_events := 100, max_recent := 50,
        dirty := false, last_flush := 0, flush_attempts := 0, flush_writes := 0 }
      2 5).2 (by decide)
    rw [h]

/-! ### Claim C4: city transitions -/

/-- Claim C4 counterexample: start_city does not reset term_index (it
stays 5) and does not force a flush (the throttle suppresses the write,
so the write counter stays 0). -/
theorem start_city_counterexample :
    (start_city c4_mgr 1 "Sparks" 101).state.term_index = 5 ∧
    (start_city c4_mgr 1 "Sparks" 101).flush_writes = 0 := by
  constructor <;> rfl

/-- Claim C4 amended: next_city resets term_index to 0, installs the new
city index, clears current_city and always writes the checkpoint
(bypassing the throttle); start_city installs the city index and name
and marks the document dirty, but leaves term_index unchanged and only
attempts a throttled, non-forced flush, writing exactly when the flush
interval has elapsed. -/
theorem city_transition_flush (m : StateManager) (i : Nat) (name : String) (now : Nat) :
    (next_city m i now).state.term_index = 0 ∧
    (next_city m i now).state.city_index = i ∧
    (next_city m i now).state.current_city = none ∧
    (next_city m i now).state.overall_progress = i * m.state.total_terms ∧
    (next_city m i now).flush_writes = m.flush_writes + 1 ∧
    (start_city m i name now).state.city_index = i ∧
    (start_city m i name now).state.current_city = some name ∧
    (start_city m i name now).state.term_index = m.state.term_index ∧
    (start_city m i name now).flush_writes =
      (if now - m.last_flush < m.flush_interval then m.flush_writes
       else m.flush_writes + 1) := by
  refine ⟨?_, ?_, ?_, ?_, ?_, ?_, ?_, ?_, ?_⟩ <;>
    simp [next_city, start_city, maybe_flush_locked] <;>
    split <;> simp_all

/-! ### Claim C6: monotonicity of overall_progress -/

/-- Claim C6 counterexample: overall_progress does decrease across a
sequence of next_city calls — next_city recomputes it from the index
argument it is given, so calling next_city 1 and then next_city 0 drops
it from 1 to 0. -/
theorem next_city_progress_counterexample :
    (next_city (next_city c6_mgr 1 1) 0 2).state.overall_progress <
      (next_city c6_mgr 1 1).state.overall_progress := by
  decide

theorem progress_step_mono (m : StateManager) (op : ProgOp)
    (hc : progConsistent m) (hv : progOpValid m op = true) :
    progConsistent (applyProgOp m op) ∧
      m.state.overall_progress ≤ (applyProgOp m op).state.overall_progress := by
  obtain ⟨hp, ht⟩ := hc
  cases op with
  | incr now =>
      simp only [progOpValid, decide_eq_true_eq] at hv
      refine ⟨⟨?_, ?_⟩, ?_⟩ <;>
        simp [applyProgOp, progConsistent, increment_term_state] <;> omega
  | next i now =>
      simp only [progOpValid, decide_eq_true_eq] at hv
      refine ⟨⟨?_, ?_⟩, ?_⟩
      · simp [applyProgOp, progConsistent, next_city_state]
      · simp [applyProgOp, progConsistent, next_city_state]
      · have h2 : (m.state.city_index + 1) * m.state.total_terms ≤
            i * m.state.total_terms := Nat.mul_le_mul_right _ hv
        have h3 : m.state.city_index * m.state.total_terms + m.state.term_index ≤
            (m.state.city_index + 1) * m.state.total_terms := by
          rw [Nat.succ_mul]
          omega
        simp only [applyProgOp, next_city_state]
        simp
        omega

/-- Claim C6 amended: from a state whose overall_progress equals
city_index * total_terms + term_index with term_index at most
total_terms, overall_progress never decreases across any sequence of
increment_term / next_city calls in which increment_term is issued only
while term_index < total_terms and every next_city index argument
exceeds the current city_index (the orchestrator's usage); consistency
is preserved, so the bound applies between every two points of the
sequence. -/
theorem overall_progress_monotone (m : StateManager) (ops : List ProgOp)
    (hc : progConsistent m) (hv : progOpsValid m ops = true) :
    progConsistent (runProgOps m ops) ∧
      m.state.overall_progress ≤ (runProgOps m ops).state.overall_progress := by
  induction ops generalizing m with
  | nil => exact ⟨hc, Nat.le_refl _⟩
  | cons op rest ih =>
      rw [progOpsValid, Bool.and_eq_true] at hv
      obtain ⟨hvo, hvr⟩ := hv
      obtain ⟨hc1, hle1⟩ := progress_step_mono m op hc hvo
      obtain ⟨hc2, hle2⟩ := ih (applyProgOp m op) hc1 hvr
      exact ⟨hc2, Nat.le_trans hle1 hle2⟩

/-- Witness for claim C6 amended: a complete two-city run (one term per
city) from the consistent initial manager, progress rising from 0 to 2. -/
theorem overall_progress_monotone_witness :
    progConsistent c6_mgr ∧
    progOpsValid c6_mgr [ProgOp.incr 1, ProgOp.next 1 2, ProgOp.incr 3, ProgOp.next 2 4] = true ∧
    c6_mgr.state.overall_progress ≤
      (runProgOps c6_mgr
        [ProgOp.incr 1, ProgOp.next 1 2, ProgOp.incr 3, ProgOp.next 2 4]).state.overall_progress := by
  refine ⟨by decide, by decide, ?_⟩
  exact (overall_progress_monotone c6_mgr
    [ProgOp.incr 1, ProgOp.next 1 2, ProgOp.incr 3, ProgOp.next 2 4]
    (by decide) (by decide)).2

/-! ### Dictionary lemmas -/

theorem dget_dset_self (d : Dict) (k : String) (v : JVal) :
    dget (dset d k v) k = some v := by
  induction d with
  | nil => simp [dset, dget]
  | cons kv rest ih =>
      by_cases h : (kv.1 == k) = true
      · simp [dset, dget, h]
      · simp [dset, dget, h, ih]

theorem dget_dset_ne (d : Dict) (k k' : String) (v : JVal) (h : k' ≠ k) :
    dget (dset d k v) k' = dget d k' := by
  induction d with
  | nil =>
      simp [dset, dget, Ne.symm h]
  | cons kv rest ih =>
      by_cases hk : (kv.1 == k) = true
      · obtain ⟨k1, v1⟩ := kv
        have hk1 : k1 = k := by simpa using hk
        subst hk1
        simp [dset, dget, Ne.symm h]
      · by_cases hk' : (kv.1 == k') = true
        · simp [dset, dget, hk, hk']
        · simp [dset, dget, hk, hk', ih]

theorem dupdate_cons (d : Dict) (kv : String × JVal) (rest : Dict) :
    dupdate d (kv :: rest) = dupdate (dset d kv.1 kv.2) rest := rfl

theorem dget_dupdate_not_mem (d : Dict) (ctx : Dict) (k : String)
    (h : k ∉ ctx.map Prod.fst) : dget (dupdate d ctx) k = dget d k := by
  induction ctx generalizing d with
  | nil => rfl
  | cons kv rest ih =>
      rw [dupdate_cons]
      have h1 : k ∉ rest.map Prod.fst := by
        intro hm
        exact h (by simp [hm])
      have h2 : k ≠ kv.1 := by
        intro hm
        exact h (by simp [hm])
      rw [ih _ h1, dget_dset_ne _ _ _ _ h2]

theorem dget_dupdate_mem (d : Dict) (ctx : Dict) (k : String) (v : JVal)
    (hnd : (ctx.map Prod.fst).Nodup) (hm : (k, v) ∈ ctx) :
    dget (dupdate d ctx) k = some v := by
  induction ctx generalizing d with
  | nil => cases hm
  | cons kv rest ih =>
      rw [List.map_cons, List.nodup_cons] at hnd
      rw [dupdate_cons]
      rcases List.mem_cons.mp hm with hm | hm
      · obtain rfl := hm.symm
        rw [dget_dupdate_not_mem _ _ _ hnd.1, dget_dset_self]
      · exact ih _ hnd.2 hm

/-! ### Trimming lemmas -/

theorem trim_cap_eq_drop (cap : Nat) (xs : List Dict) :
    trim_cap cap xs = xs.drop (xs.length - cap) := by
  unfold trim_cap
  split
  · rfl
  · rename_i h
    have h0 : xs.length - cap = 0 := by omega
    rw [h0, List.drop_zero]

theorem trim_cap_append_trim (cap : Nat) (a b : List Dict) :
    trim_cap cap (trim_cap cap a ++ b) = trim_cap cap (a ++ b) := by
  simp only [trim_cap_eq_drop]
  rw [List.drop_append_eq_append_drop, List.drop_append_eq_append_drop,
    List.drop_drop]
  simp only [List.length_append, List.length_drop]
  congr 1
  · congr 1
    omega
  · congr 1
    omega

theorem trim_cap_getLast (cap : Nat) (xs : List Dict) (p : Dict) (h : 0 < cap) :
    (trim_cap cap (xs ++ [p])).getLast? = some p := by
  rw [trim_cap_eq_drop, List.drop_append_eq_append_drop]
  have h1 : (xs ++ [p]).length - cap - xs.length = 0 := by
    simp only [List.length_append, List.length_singleton]
    omega
  rw [h1, List.drop_zero, List.getLast?_concat]

/-! ### Folding record_event over a call sequence -/

theorem record_events_cons (m : StateManager) (e : EventIn) (ins : List EventIn) :
    record_events m (e :: ins) = record_events (record_one m e) ins := rfl

theorem record_one_events (m : StateManager) (e : EventIn) :
    (record_one m e).state.events =
      trim_cap m.max_events (m.state.events ++ [payload_of e]) := by
  simp [record_one, record_event_state, payload_of]

theorem record_one_alerts (m : StateManager) (e : EventIn) :
    (record_one m e).state.alerts =
      (if is_alert_level e.level then
        trim_cap m.max_events (m.state.alerts ++ [payload_of e])
       else m.state.alerts) := by
  simp [record_one, record_event_state, payload_of]

theorem record_one_max_events (m : StateManager) (e : EventIn) :
    (record_one m e).max_events = m.max_events := by
  simp [record_one, record_event_max_events]

theorem record_events_events (m : StateManager) (ins : List EventIn)
    (hne : ins ≠ []) :
    (record_events m ins).state.events =
      trim_cap m.max_events (m.state.events ++ ins.map payload_of) := by
  induction ins generalizing m with
  | nil => exact absurd rfl hne
  | cons e rest ih =>
      rw [record_events_cons]
      cases rest with
      | nil =>
          simp [record_events, record_one_events]
      | cons e2 rest2 =>
          rw [ih (record_one m e) (by simp), record_one_events,
            record_one_max_events, trim_cap_append_trim]
          simp

theorem record_events_alerts (m : StateManager) (ins : List EventIn) :
    (record_events m ins).state.alerts =
      (if ins.filter (fun e => is_alert_level e.level) = [] then m.state.alerts
       else trim_cap m.max_events
         (m.state.alerts ++
            (ins.filter (fun e => is_alert_level e.level)).map payload_of)) := by
  induction ins generalizing m with
  | nil => simp [record_events]
  | cons e rest ih =>
      rw [record_events_cons, ih, record_one_max_events, record_one_alerts]
      by_cases he : is_alert_level e.level = true
      · rw [if_pos he, List.filter_cons_of_pos (by simpa using he),
          if_neg (List.cons_ne_nil _ _), List.map_cons]
        by_cases hr : rest.filter (fun e => is_alert_level e.level) = []
        · rw [if_pos hr, hr]
          simp
        · rw [if_neg hr, trim_cap_append_trim]
          simp
      · rw [if_neg he, List.filter_cons_of_neg (by simpa using he)]

/-! ### Claim C7: bounded event logs -/

/-- Claim C7: after a sequence of record_event calls longer than the
cap, the events list has length exactly the cap and consists of the
most recent payloads in call order; the error and warning payloads are
also appended to the alerts list, which is trimmed to the same cap in
the same way. -/
theorem record_event_bounded (m : StateManager) (ins : List EventIn)
    (h : m.max_events < ins.length) :
    (record_events m ins).state.events =
        (ins.map payload_of).drop (ins.length - m.max_events) ∧
    (record_events m ins).state.events.length = m.max_events ∧
    (record_events m ins).state.alerts =
      (if ins.filter (fun e => is_alert_level e.level) = [] then m.state.alerts
       else trim_cap m.max_events
         (m.state.alerts ++
            (ins.filter (fun e => is_alert_level e.level)).map payload_of)) := by
  have hne : ins ≠ [] := by
    intro h0
    rw [h0] at h
    simp at h
  have hev := record_events_events m ins hne
  refine ⟨?_, ?_, record_events_alerts m ins⟩
  · rw [hev, trim_cap_eq_drop, List.drop_append_eq_append_drop]
    have h1 : m.state.events.length ≤
        (m.state.events ++ ins.map payload_of).length - m.max_events := by
      simp only [List.length_append, List.length_map]
      omega
    rw [List.drop_eq_nil_of_le h1, List.nil_append]
    congr 1
    simp only [List.length_append, List.length_map]
    omega
  · rw [hev, trim_cap_eq_drop]
    simp only [List.length_drop, List.length_append, List.length_map]
    omega

/-- Witness for claim C7: two events against a cap of one; only the
second (error) payload survives in events, and the alerts list holds
exactly the error payload. -/
theorem record_event_bounded_witness :
    (record_events c7_mgr c7_ins).state.events =
        (c7_ins.map payload_of).drop (c7_ins.length - c7_mgr.max_events) ∧
    (record_events c7_mgr c7_ins).state.events.length = c7_mgr.max_events ∧
    (record_events c7_mgr c7_ins).state.alerts =
      (if c7_ins.filter (fun e => is_alert_level e.level) = [] then
        c7_mgr.state.alerts
       else trim_cap c7_mgr.max_events
         (c7_mgr.state.alerts ++
            (c7_ins.filter (fun e => is_alert_level e.level)).map payload_of)) :=
  record_event_bounded c7_mgr c7_ins (by decide)

/-! ### Claim C10: context merging in record_event -/

/-- Claim C10: a non-empty context is merged into the top level of the
stored payload after level, message, timestamp and worker are set, so a
context carrying any of those keys silently overwrites them; and for an
error or warning level the very same payload value is appended to both
the events and the alerts lists. -/
theorem record_event_context_overrides (m : StateManager)
    (level message : String) (w : Option Nat) (ctx : Dict) (now : Nat)
    (hne : ctx ≠ []) (hnd : (ctx.map Prod.fst).Nodup) (hcap : 0 < m.max_events) :
    (∀ k v, (k, v) ∈ ctx →
        dget (event_payload level message now w ctx) k = some v) ∧
    (is_alert_level level = true →
      (record_event m level message w ctx now).state.events.getLast? =
          some (event_payload level message now w ctx) ∧
      (record_event m level message w ctx now).state.alerts.getLast? =
          some (event_payload level message now w ctx)) := by
  constructor
  · intro k v hm
    unfold event_payload
    rw [if_neg (by simpa using hne)]
    exact dget_dupdate_mem _ ctx k v hnd hm
  · intro ha
    rw [record_event_state]
    constructor
    · simp only
      exact trim_cap_getLast _ _ _ hcap
    · simp only [ha, if_pos]
      exact trim_cap_getLast _ _ _ hcap

/-- Witness for claim C10: a context whose level key overwrites the
payload's level field, and the warning payload landing identically at
the end of both logs. -/
theorem record_event_context_overrides_witness :
    dget (event_payload "warning" "msg" 7 (some 1) [("level", JVal.str "boo")])
        "level" = some (JVal.str "boo") ∧
    (record_event c10_mgr "warning" "msg" (some 1)
        [("level", JVal.str "boo")] 7).state.events.getLast? =
      some (event_payload "warning" "msg" 7 (some 1) [("level", JVal.str "boo")]) ∧
    (record_event c10_mgr "warning" "msg" (some 1)
        [("level", JVal.str "boo")] 7).state.alerts.getLast? =
      some (event_payload "warning" "msg" 7 (some 1) [("level", JVal.str "boo")]) := by
  have h := record_event_context_overrides c10_mgr "warning" "msg" (some 1)
    [("level", JVal.str "boo")] 7 (by decide) (by decide) (by decide)
  exact ⟨h.1 "level" (JVal.str "boo") (by decide),
    (h.2 (by decide)).1, (h.2 (by decide)).2⟩

/-! ### Claim C5: atomic checkpoint writes -/

theorem foldl_append_init (cs : List String) (a : String) :
    cs.foldl (· ++ ·) a = a ++ cs.foldl (· ++ ·) "" := by
  induction cs generalizing a with
  | nil => simp [List.foldl]
  | cons c cs ih =>
      rw [List.foldl_cons, List.foldl_cons, ih (a ++ c), ih ("" ++ c)]
      simp [String.append_assoc]

theorem string_join_cons (c : String) (cs : List String) :
    String.join (c :: cs) = c ++ String.join cs := by
  show (c :: cs).foldl (· ++ ·) "" = c ++ cs.foldl (· ++ ·) ""
  rw [List.foldl_cons, foldl_append_init]
  simp

theorem runFsOps_cons (fs : Fs) (op : FsOp) (ops : List FsOp) :
    runFsOps fs (op :: ops) = runFsOps (applyFsOp fs op) ops := rfl

theorem runFsOps_checkpoint_of_no_replace (ops : List FsOp) (fs : Fs)
    (h : FsOp.replaceTmp ∉ ops) :
    (runFsOps fs ops).checkpoint = fs.checkpoint := by
  induction ops generalizing fs with
  | nil => rfl
  | cons op rest ih =>
      rw [runFsOps_cons, ih _ (fun hm => h (List.mem_cons_of_mem _ hm))]
      cases op with
      | openTmp => rfl
      | writeTmp c => rfl
      | replaceTmp => exact absurd (List.mem_cons_self _ _) h

theorem runFsOps_write_chunks (chunks : List String) (fs : Fs) (s : String)
    (h : fs.tmp = some s) :
    (runFsOps fs (chunks.map FsOp.writeTmp)).tmp =
        some (s ++ String.join chunks) ∧
    (runFsOps fs (chunks.map FsOp.writeTmp)).checkpoint = fs.checkpoint := by
  induction chunks generalizing fs s with
  | nil =>
      refine ⟨?_, rfl⟩
      show fs.tmp = some (s ++ String.join [])
      rw [h, show String.join [] = "" from rfl]
      simp
  | cons c cs ih =>
      rw [List.map_cons, runFsOps_cons]
      have h1 : (applyFsOp fs (FsOp.writeTmp c)).tmp = some (s ++ c) := by
        simp [applyFsOp, h]
      obtain ⟨ht, hc⟩ := ih _ _ h1
      refine ⟨?_, hc⟩
      rw [ht, string_join_cons, String.append_assoc]

theorem replaceTmp_not_mem_write_prefix (st : RunState) :
    FsOp.replaceTmp ∉
      FsOp.openTmp :: (serializeChunks st).map FsOp.writeTmp := by
  intro h
  rcases List.mem_cons.mp h with h | h
  · cases h
  · obtain ⟨c, _, hc⟩ := List.mem_map.mp h
    cases hc

theorem string_empty_append (s : String) : "" ++ s = s := rfl

theorem runFsOps_append (fs : Fs) (a b : List FsOp) :
    runFsOps fs (a ++ b) = runFsOps (runFsOps fs a) b := by
  simp [runFsOps, List.foldl_append]

theorem runFsOps_flush_full (st : RunState) (fs : Fs) :
    (runFsOps fs (flushFsOps st)).checkpoint = some (serializeState st) := by
  have h1 : (applyFsOp fs FsOp.openTmp).tmp = some "" := rfl
  obtain ⟨ht, _⟩ := runFsOps_write_chunks (serializeChunks st)
    (applyFsOp fs FsOp.openTmp) "" h1
  have h2 : flushFsOps st =
      (FsOp.openTmp :: (serializeChunks st).map FsOp.writeTmp) ++
        [FsOp.replaceTmp] := rfl
  have h3 : ∀ g : Fs, runFsOps g ([] : List FsOp) = g := fun g => rfl
  have h4 : ∀ g : Fs, applyFsOp g FsOp.replaceTmp = ⟨g.tmp, none⟩ :=
    fun g => rfl
  rw [h2, runFsOps_append, runFsOps_cons, runFsOps_cons, h3, h4, ht,
    string_empty_append]
  rfl

/-- Claim C5: a flush either performs no filesystem operation (the
throttle skipped it) or streams the whole serialized document into the
temporary path and atomically renames it over the checkpoint path, so
interrupting the operation sequence at any point leaves the checkpoint
path holding either its previous content or the complete new serialized
document — never a truncated one; the completed sequence always
installs the new document. -/
theorem flush_atomic (m : StateManager) (now : Nat) (force : Bool)
    (fs : Fs) (k : Nat) :
    ((runFsOps fs ((maybe_flush_fs m now force).take k)).checkpoint =
        fs.checkpoint ∨
     (runFsOps fs ((maybe_flush_fs m now force).take k)).checkpoint =
        some (serializeState m.state)) ∧
    (maybe_flush_fs m now force ≠ [] →
      (runFsOps fs (maybe_flush_fs m now force)).checkpoint =
        some (serializeState m.state)) := by
  have hcases : maybe_flush_fs m now force = [] ∨
      maybe_flush_fs m now force = flushFsOps m.state := by
    unfold maybe_flush_fs
    split
    · exact Or.inl rfl
    · split
      · exact Or.inl rfl
      · exact Or.inr rfl
  rcases hcases with h | h
  · rw [h]
    refine ⟨Or.inl ?_, fun hne => absurd rfl hne⟩
    rw [List.take_nil]
    rfl
  · rw [h]
    refine ⟨?_, fun _ => runFsOps_flush_full m.state fs⟩
    unfold flushFsOps
    by_cases hk :
        k ≤ (FsOp.openTmp :: (serializeChunks m.state).map FsOp.writeTmp).length
    · left
      rw [List.take_append_of_le_length hk]
      exact runFsOps_checkpoint_of_no_replace _ fs
        (fun hm => replaceTmp_not_mem_write_prefix m.state
          (List.take_subset _ _ hm))
    · right
      push_neg at hk
      have hfull :
          ((FsOp.openTmp :: (serializeChunks m.state).map FsOp.writeTmp) ++
            [FsOp.replaceTmp]).take k =
          (FsOp.openTmp :: (serializeChunks m.state).map FsOp.writeTmp) ++
            [FsOp.replaceTmp] := by
        apply List.take_of_length_le
        simp only [List.length_cons, List.length_append, List.length_map,
          List.length_nil]
        simp only [List.length_cons, List.length_map] at hk
        omega
      rw [hfull]
      exact runFsOps_flush_full m.state fs

/-- Witness for claim C5: a throttled-skip flush leaves the prior
content in place, and a forced flush interrupted right before the rename
still leaves the prior content, while the completed forced flush
installs the new serialized document. -/
theorem flush_atomic_witness :
    ((runFsOps ⟨some "old", none⟩ ((maybe_flush_fs c4_mgr 101 false).take 3)).checkpoint =
        (⟨some "old", none⟩ : Fs).checkpoint ∨
     (runFsOps ⟨some "old", none⟩ ((maybe_flush_fs c4_mgr 101 false).take 3)).checkpoint =
        some (serializeState c4_mgr.state)) ∧
    (maybe_flush_fs c4_mgr 101 true ≠ [] →
      (runFsOps ⟨some "old", none⟩ (maybe_flush_fs c4_mgr 101 true)).checkpoint =
        some (serializeState c4_mgr.state)) :=
  ⟨(flush_atomic c4_mgr 101 false ⟨some "old", none⟩ 3).1,
   (flush_atomic c4_mgr 101 true ⟨some "old", none⟩ 3).2⟩

/-! ### Claims C1 and C8: the deduplicating store -/

theorem filter_new_aux_seen_mono (rs : List BusinessRecord) (s : BusinessStore)
    (k : String × String) (h : k ∈ s.seen_keys) :
    k ∈ (filter_new_aux s rs).2.1.seen_keys := by
  induction rs generalizing s with
  | nil => exact h
  | cons r rest ih =>
      simp only [filter_new_aux]
      split_ifs <;>
        first
          | exact ih s h
          | exact ih _ (List.mem_append_left _ h)

theorem filter_new_aux_valid_seen (rs : List BusinessRecord) (s : BusinessStore)
    (r : BusinessRecord) (hm : r ∈ rs) (hv : record_valid r = true) :
    record_key r ∈ (filter_new_aux s rs).2.1.seen_keys := by
  induction rs generalizing s with
  | nil => cases hm
  | cons r0 rest ih =>
      rcases List.mem_cons.mp hm with rfl | hm2
      · simp only [filter_new_aux]
        split_ifs with h1 h2 h3 h4
        · rw [hv] at h1
          cases h1
        · exact filter_new_aux_seen_mono rest s _ (of_decide_eq_true h2)
        · exact filter_new_aux_seen_mono rest _ _
            (List.mem_append_right _ (List.mem_singleton_self _))
        · exact filter_new_aux_seen_mono rest _ _
            (List.mem_append_right _ (List.mem_singleton_self _))
        · exact filter_new_aux_seen_mono rest _ _
            (List.mem_append_right _ (List.mem_singleton_self _))
      · simp only [filter_new_aux]
        split_ifs <;> first | exact ih s hm2 | exact ih _ hm2

theorem filter_new_aux_out_avoids (rs : List BusinessRecord) (s : BusinessStore)
    (k : String × String) (h : k ∈ s.seen_keys) :
    ∀ r ∈ (filter_new_aux s rs).1, record_key r ≠ k := by
  induction rs generalizing s with
  | nil =>
      intro r hr
      cases hr
  | cons r0 rest ih =>
      simp only [filter_new_aux]
      split_ifs with h1 h2 h3 h4
      · exact ih s h
      · exact ih s h
      · exact ih _ (List.mem_append_left _ h)
      · intro r hr
        rcases List.mem_cons.mp hr with rfl | hr2
        · intro hk
          exact h2 (decide_eq_true (hk ▸ h))
        · exact ih _ (List.mem_append_left _ h) r hr2
      · intro r hr
        rcases List.mem_cons.mp hr with rfl | hr2
        · intro hk
          exact h2 (decide_eq_true (hk ▸ h))
        · exact ih _ (List.mem_append_left _ h) r hr2

theorem filter_new_aux_all_seen (rs : List BusinessRecord) (s : BusinessStore)
    (h : ∀ r ∈ rs, record_valid r = true → record_key r ∈ s.seen_keys) :
    (filter_new_aux s rs).1 = [] := by
  induction rs generalizing s with
  | nil => rfl
  | cons r0 rest ih =>
      simp only [filter_new_aux]
      split_ifs with h1 h2 h3 h4
      · exact ih s (fun r hr hv => h r (List.mem_cons_of_mem _ hr) hv)
      · exact ih s (fun r hr hv => h r (List.mem_cons_of_mem _ hr) hv)
      · exact absurd
          (decide_eq_true (h r0 (List.mem_cons_self _ _) (by simpa using h1))) h2
      · exact absurd
          (decide_eq_true (h r0 (List.mem_cons_self _ _) (by simpa using h1))) h2
      · exact absurd
          (decide_eq_true (h r0 (List.mem_cons_self _ _) (by simpa using h1))) h2

theorem filter_new_aux_trace (rs : List BusinessRecord) (s : BusinessStore) :
    (filter_new_aux s rs).2.2.Nodup ∧
    ∀ k ∈ (filter_new_aux s rs).2.2,
      k ∉ s.seen_keys ∧ k ∈ (filter_new_aux s rs).2.1.seen_keys := by
  induction rs generalizing s with
  | nil => exact ⟨List.nodup_nil, fun k hk => absurd hk (List.not_mem_nil k)⟩
  | cons r0 rest ih =>
      simp only [filter_new_aux]
      split_ifs with h1 h2 h3 h4
      · exact ih s
      · exact ih s
      · obtain ⟨hnd, hsub⟩ :=
          ih { s with seen_keys := s.seen_keys ++ [record_key r0] }
        refine ⟨List.nodup_cons.mpr ⟨?_, hnd⟩, ?_⟩
        · intro hmem
          exact (hsub _ hmem).1
            (List.mem_append_right _ (List.mem_singleton_self _))
        · intro k hk
          rcases List.mem_cons.mp hk with rfl | hk2
          · exact ⟨fun hs => h2 (decide_eq_true hs),
              filter_new_aux_seen_mono rest _ _
                (List.mem_append_right _ (List.mem_singleton_self _))⟩
          · refine ⟨fun hs => (hsub k hk2).1 (List.mem_append_left _ hs),
              (hsub k hk2).2⟩
      · obtain ⟨hnd, hsub⟩ :=
          ih { s with seen_keys := s.seen_keys ++ [record_key r0] }
        refine ⟨List.nodup_cons.mpr ⟨?_, hnd⟩, ?_⟩
        · intro hmem
          exact (hsub _ hmem).1
            (List.mem_append_right _ (List.mem_singleton_self _))
        · intro k hk
          rcases List.mem_cons.mp hk with rfl | hk2
          · exact ⟨fun hs => h2 (decide_eq_true hs),
              filter_new_aux_seen_mono rest _ _
                (List.mem_append_right _ (List.mem_singleton_self _))⟩
          · refine ⟨fun hs => (hsub k hk2).1 (List.mem_append_left _ hs),
              (hsub k hk2).2⟩
      · obtain ⟨hnd, hsub⟩ :=
          ih { s with seen_keys := s.seen_keys ++ [record_key r0] }
        refine ⟨hnd, ?_⟩
        intro k hk
        refine ⟨fun hs => (hsub k hk).1 (List.mem_append_left _ hs),
          (hsub k hk).2⟩

theorem filter_new_aux_spec_gen (rs : List BusinessRecord)
    (s : BusinessStore) :
    ∀ (s' : BusinessStore) (keys : List (String × String)),
      s'.storage = s.storage → s'.conn_rows = s.conn_rows →
      (∀ k, k ∈ keys ↔ k ∈ s'.seen_keys) →
      filterNewSpec s keys rs = (filter_new_aux s' rs).1 := by
  induction rs with
  | nil => intro s' keys _ _ _; rfl
  | cons r0 rest ih =>
      intro s' keys hst hcn hiff
      have hp : preload_complete s' = preload_complete s := by
        simp [preload_complete, hst]
      have he : exists_in_store s' r0 = exists_in_store s r0 := by
        simp [exists_in_store, hst, hcn]
      have hiffx : ∀ k,
          k ∈ keys ++ [record_key r0] ↔
          k ∈ s'.seen_keys ++ [record_key r0] := by
        intro k
        rw [List.mem_append, List.mem_append, hiff k]
      simp only [filterNewSpec, filter_new_aux]
      by_cases hv : record_valid r0 = true
      · have hcv : ¬((!record_valid r0) = true) := by simp [hv]
        rw [if_pos hv, if_neg hcv]
        by_cases hs : record_key r0 ∈ s'.seen_keys
        · have hd : (decide (record_key r0 ∈ keys) ||
              (!preload_complete s && exists_in_store s r0)) = true := by
            rw [decide_eq_true ((hiff _).mpr hs), Bool.true_or]
          rw [if_pos hd, if_pos (decide_eq_true hs)]
          refine ih s' (keys ++ [record_key r0]) hst hcn (fun k => ?_)
          rw [List.mem_append]
          constructor
          · rintro (hk | hk)
            · exact (hiff k).mp hk
            · rw [List.mem_singleton.mp hk]
              exact hs
          · intro hk
            exact Or.inl ((hiff k).mpr hk)
        · have hD : ¬(decide (record_key r0 ∈ s'.seen_keys) = true) :=
            fun hd => hs (of_decide_eq_true hd)
          rw [if_neg hD]
          have hkeys : decide (record_key r0 ∈ keys) = false :=
            decide_eq_false (fun hk => hs ((hiff _).mp hk))
          by_cases hpre : preload_complete s = true
          · have hE : ¬((!preload_complete s') = true) := by
              rw [hp, hpre]
              simp
            have hB : ¬((decide (record_key r0 ∈ keys) ||
                (!preload_complete s && exists_in_store s r0)) = true) := by
              rw [hkeys, hpre]
              simp
            rw [if_neg hE, if_neg hB]
            exact congrArg (r0 :: ·)
              (ih _ (keys ++ [record_key r0]) hst hcn hiffx)
          · have hpre' : preload_complete s = false := by simpa using hpre
            have hE : (!preload_complete s') = true := by
              rw [hp, hpre']
              rfl
            rw [if_pos hE]
            by_cases hex : exists_in_store s r0 = true
            · have hF : exists_in_store s' r0 = true := by rw [he, hex]
              have hB : (decide (record_key r0 ∈ keys) ||
                  (!preload_complete s && exists_in_store s r0)) = true := by
                rw [hkeys, hpre', hex]
                rfl
              rw [if_pos hF, if_pos hB]
              exact ih _ (keys ++ [record_key r0]) hst hcn hiffx
            · have hex' : exists_in_store s r0 = false := by simpa using hex
              have hF : ¬(exists_in_store s' r0 = true) := by
                rw [he, hex']
                simp
              have hB : ¬((decide (record_key r0 ∈ keys) ||
                  (!preload_complete s && exists_in_store s r0)) = true) := by
                rw [hkeys, hpre', hex']
                simp
              rw [if_neg hF, if_neg hB]
              exact congrArg (r0 :: ·)
                (ih _ (keys ++ [record_key r0]) hst hcn hiffx)
      · have hv' : record_valid r0 = false := by simpa using hv
        have hcv : (!record_valid r0) = true := by
          rw [hv']
          rfl
        rw [if_neg hv, if_pos hcv]
        exact ih s' keys hst hcn hiff

theorem save_new_aux_parts (s : BusinessStore) (rs : List BusinessRecord) :
    (save_new_aux s rs).1 = (filter_new_aux s rs).1 ∧
    (save_new_aux s rs).2.1.seen_keys = (filter_new_aux s rs).2.1.seen_keys ∧
    (save_new_aux s rs).2.2 = (filter_new_aux s rs).2.2 := by
  unfold save_new_aux
  split_ifs with h
  · refine ⟨?_, rfl, rfl⟩
    exact (List.isEmpty_iff.mp h).symm
  · exact ⟨rfl, rfl, rfl⟩

theorem storeCallStep_seen_mono (s : BusinessStore) (c : StoreCall)
    (k : String × String) (h : k ∈ s.seen_keys) :
    k ∈ (storeCallStep s c).2.1.seen_keys := by
  cases c with
  | filter rs => exact filter_new_aux_seen_mono rs s k h
  | save rs =>
      show k ∈ (save_new_aux s rs).2.1.seen_keys
      rw [(save_new_aux_parts s rs).2.1]
      exact filter_new_aux_seen_mono rs s k h

theorem storeCallStep_trace (s : BusinessStore) (c : StoreCall) :
    (storeCallStep s c).2.2.Nodup ∧
    ∀ k ∈ (storeCallStep s c).2.2,
      k ∉ s.seen_keys ∧ k ∈ (storeCallStep s c).2.1.seen_keys := by
  cases c with
  | filter rs => exact filter_new_aux_trace rs s
  | save rs =>
      obtain ⟨hnd, hsub⟩ := filter_new_aux_trace rs s
      obtain ⟨_, hseen, htr⟩ := save_new_aux_parts s rs
      constructor
      · show (save_new_aux s rs).2.2.Nodup
        rw [htr]
        exact hnd
      · show ∀ k ∈ (save_new_aux s rs).2.2, _
        rw [htr]
        intro k hk
        refine ⟨(hsub k hk).1, ?_⟩
        show k ∈ (save_new_aux s rs).2.1.seen_keys
        rw [hseen]
        exact (hsub k hk).2

theorem run_store_seen_mono (calls : List StoreCall) (s : BusinessStore)
    (k : String × String) (h : k ∈ s.seen_keys) :
    k ∈ (run_store s calls).1.seen_keys := by
  induction calls generalizing s with
  | nil => exact h
  | cons c rest ih => exact ih _ (storeCallStep_seen_mono s c k h)

theorem run_store_outputs_avoid (calls : List StoreCall) (s : BusinessStore)
    (k : String × String) (h : k ∈ s.seen_keys) :
    ∀ out ∈ (run_store s calls).2.1, ∀ r ∈ out, record_key r ≠ k := by
  induction calls generalizing s with
  | nil =>
      intro out hout
      cases hout
  | cons c rest ih =>
      intro out hout
      rcases List.mem_cons.mp hout with rfl | h2
      · cases c with
        | filter rs => exact filter_new_aux_out_avoids rs s k h
        | save rs =>
            intro r hr
            have hr2 : r ∈ (filter_new_aux s rs).1 := by
              rw [← (save_new_aux_parts s rs).1]
              exact hr
            exact filter_new_aux_out_avoids rs s k h r hr2
      · exact ih _ (storeCallStep_seen_mono s c k h) out h2

theorem run_store_trace (calls : List StoreCall) (s : BusinessStore) :
    (run_store s calls).2.2.Nodup ∧
    ∀ k ∈ (run_store s calls).2.2,
      k ∉ s.seen_keys ∧ k ∈ (run_store s calls).1.seen_keys := by
  induction calls generalizing s with
  | nil => exact ⟨List.nodup_nil, fun k hk => absurd hk (List.not_mem_nil k)⟩
  | cons c rest ih =>
      obtain ⟨hnd1, hsub1⟩ := storeCallStep_trace s c
      obtain ⟨hnd2, hsub2⟩ := ih (storeCallStep s c).2.1
      constructor
      · refine List.Nodup.append hnd1 hnd2 ?_
        intro k hk1 hk2
        exact (hsub2 k hk2).1 (hsub1 k hk1).2
      · intro k hk
        rcases List.mem_append.mp hk with hk1 | hk2
        · exact ⟨(hsub1 k hk1).1,
            run_store_seen_mono rest _ k (hsub1 k hk1).2⟩
        · refine ⟨?_, (hsub2 k hk2).2⟩
          intro hks
          exact (hsub2 k hk2).1 (storeCallStep_seen_mono s c k hks)

/-- Claim C1: resubmitting any batch to the same store instance returns
an empty inserted list from the second save_new, and once a key is in
the dedupe set — via eager preload, a memoized backend lookup, or an
earlier filter_new / save_new call — no record with that key is ever
returned as new by any later call in the store's lifetime. -/
theorem save_new_idempotent (s : BusinessStore) (batch : List BusinessRecord)
    (calls : List StoreCall) (k : String × String) :
    (save_new (save_new s batch).2 batch).1 = [] ∧
    (k ∈ s.seen_keys →
      ∀ out ∈ (run_store s calls).2.1, ∀ r ∈ out, record_key r ≠ k) := by
  constructor
  · show (save_new_aux (save_new_aux s batch).2.1 batch).1 = []
    have hall : ∀ r ∈ batch, record_valid r = true →
        record_key r ∈ (save_new_aux s batch).2.1.seen_keys := by
      intro r hr hv
      rw [(save_new_aux_parts s batch).2.1]
      exact filter_new_aux_valid_seen batch s r hr hv
    have h0 := filter_new_aux_all_seen batch _ hall
    rw [(save_new_aux_parts (save_new_aux s batch).2.1 batch).1, h0]
  · intro hk
    exact run_store_outputs_avoid calls s k hk

/-- Witness for claim C1: a double save of a concrete batch against a
lazy postgres store inserts nothing the second time, and the
already-seen key is never output across a save-then-filter lifetime. -/
theorem save_new_idempotent_witness :
    (save_new (save_new dstore dbatch).2 dbatch).1 = [] ∧
    (∀ out ∈ (run_store dstore dcalls).2.1, ∀ r ∈ out,
      record_key r ≠ ("old bar", "2 oak ave")) :=
  ⟨(save_new_idempotent dstore dbatch dcalls ("old bar", "2 oak ave")).1,
   (save_new_idempotent dstore dbatch dcalls ("old bar", "2 oak ave")).2
     (by decide)⟩

/-- Claim C8: filter_new returns exactly the records with non-blank
(after stripping) name and address whose identity key is not already
known — known meaning in the dedupe set or, for a backend without eager
preload, found by a raw point lookup — each processed key counting as
known for the records after it; over the store's whole lifetime no key
is ever looked up twice, and every looked-up key is memoized into the
dedupe set whether the lookup hit or missed. -/
theorem filter_new_correct (s : BusinessStore) (rs : List BusinessRecord)
    (calls : List StoreCall) :
    (filter_new s rs).1 = filterNewSpec s s.seen_keys rs ∧
    (run_store s calls).2.2.Nodup ∧
    (∀ k ∈ (run_store s calls).2.2, k ∈ (run_store s calls).1.seen_keys) := by
  refine ⟨?_, (run_store_trace calls s).1,
    fun k hk => ((run_store_trace calls s).2 k hk).2⟩
  exact (filter_new_aux_spec_gen rs s s s.seen_keys rfl rfl
    (fun k => Iff.rfl)).symm

/-- Witness for claim C8: the concrete batch filters to exactly its
specification image, the concrete lifetime performs two lookups with
distinct keys, and the looked-up key of the fresh record is memoized. -/
theorem filter_new_correct_witness :
    (filter_new dstore dbatch).1 =
        filterNewSpec dstore dstore.seen_keys dbatch ∧
    (run_store dstore dcalls).2.2.Nodup ∧
    ("new biz", "elm rd") ∈ (run_store dstore dcalls).1.seen_keys := by
  have h := filter_new_correct dstore dbatch dcalls
  exact ⟨h.1, h.2.1, h.2.2 ("new biz", "elm rd") (by decide)⟩

/-! ### Claim C2: task failure is completion -/

theorem clear_batch_events (m : StateManager) (w now : Nat) :
    (clear_batch m w now).state.events = m.state.events := by
  rw [clear_batch_state]
  split <;> rfl

theorem clear_worker_events (m : StateManager) (w now : Nat) :
    (clear_worker m w now).state.events = m.state.events := by
  rw [clear_worker_state]

theorem record_event_workers (m : StateManager) (level message : String)
    (w : Option Nat) (ctx : Dict) (now : Nat) :
    (record_event m level message w ctx now).state.workers = m.state.workers := by
  rw [record_event_state]

theorem record_event_batch (m : StateManager) (level message : String)
    (w : Option Nat) (ctx : Dict) (now : Nat) :
    (record_event m level message w ctx now).state.batch = m.state.batch := by
  rw [record_event_state]

theorem record_event_term_index (m : StateManager) (level message : String)
    (w : Option Nat) (ctx : Dict) (now : Nat) :
    (record_event m level message w ctx now).state.term_index =
      m.state.term_index := by
  rw [record_event_state]

theorem record_event_city_index (m : StateManager) (level message : String)
    (w : Option Nat) (ctx : Dict) (now : Nat) :
    (record_event m level message w ctx now).state.city_index =
      m.state.city_index := by
  rw [record_event_state]

theorem record_event_total_terms (m : StateManager) (level message : String)
    (w : Option Nat) (ctx : Dict) (now : Nat) :
    (record_event m level message w ctx now).state.total_terms =
      m.state.total_terms := by
  rw [record_event_state]

theorem task_cleanup_workers (m : StateManager) (w now : Nat) :
    (task_cleanup m w now).state.workers =
      wremove m.state.workers (toString w) := by
  unfold task_cleanup
  rw [increment_term_state, clear_worker_state, clear_batch_state]
  split <;> rfl

theorem task_cleanup_batch (m : StateManager) (w now : Nat) :
    (task_cleanup m w now).state.batch =
      (if m.state.batch.worker == some (toString w) then
        { m.state.batch with fill := 0, total := 0, worker := none }
       else m.state.batch) := by
  unfold task_cleanup
  rw [increment_term_state, clear_worker_state, clear_batch_state]
  split <;> rfl

theorem task_cleanup_term_index (m : StateManager) (w now : Nat) :
    (task_cleanup m w now).state.term_index = m.state.term_index + 1 := by
  unfold task_cleanup
  rw [increment_term_state, clear_worker_state, clear_batch_state]
  split <;> rfl

theorem task_cleanup_progress (m : StateManager) (w now : Nat) :
    (task_cleanup m w now).state.overall_progress =
      m.state.city_index * m.state.total_terms + (m.state.term_index + 1) := by
  unfold task_cleanup
  rw [increment_term_state, clear_worker_state, clear_batch_state]
  split <;> rfl

theorem task_cleanup_events (m : StateManager) (w now : Nat) :
    (task_cleanup m w now).state.events = m.state.events := by
  unfold task_cleanup
  rw [increment_term_state, clear_worker_state, clear_batch_state]
  split <;> rfl

theorem task_cleanup_max_events (m : StateManager) (w now : Nat) :
    (task_cleanup m w now).max_events = m.max_events := by
  unfold task_cleanup
  rw [increment_term_max_events, clear_worker_max_events,
    clear_batch_max_events]

theorem wget_wremove (ws : List (String × WorkerInfo)) (k : String) :
    wget (wremove ws k) k = none := by
  induction ws with
  | nil => rfl
  | cons kv rest ih =>
      rw [wremove]
      by_cases h : (kv.1 == k) = true
      · rw [if_pos h]
        exact ih
      · rw [if_neg h, wget, if_neg h]
        exact ih

/-- Claim C2: when the scraping collaborator raises a non-cancellation
exception, the worker records an error event whose payload carries the
task context, and otherwise completes the task exactly as on success
with the same collaborator effects: the same cleared worker and batch
state, the same advanced term counter, progress, and processed-terms
metric; the task is not re-enqueued and the loop continues with the
rest of the queue. -/
theorem worker_error_completes (w : Nat) (city t msg : String)
    (eff : StateManager → StateManager) (now : Nat) (world : WorkerWorld)
    (rest : List String)
    (script : String → (StateManager → StateManager) × ScrapeOutcome) :
    (run_task w city t eff (.fail msg) now world).mgr.state.events =
      trim_cap (run_task w city t eff .ok now world).mgr.max_events
        ((run_task w city t eff .ok now world).mgr.state.events ++
          [worker_error_payload w city t msg now]) ∧
    dget (worker_error_payload w city t msg now) "level" =
      some (JVal.str "error") ∧
    (run_task w city t eff (.fail msg) now world).mgr.state.term_index =
      (run_task w city t eff .ok now world).mgr.state.term_index ∧
    (run_task w city t eff (.fail msg) now world).mgr.state.overall_progress =
      (run_task w city t eff .ok now world).mgr.state.overall_progress ∧
    (run_task w city t eff (.fail msg) now world).mgr.state.workers =
      (run_task w city t eff .ok now world).mgr.state.workers ∧
    (run_task w city t eff (.fail msg) now world).mgr.state.batch =
      (run_task w city t eff .ok now world).mgr.state.batch ∧
    (run_task w city t eff (.fail msg) now world).terms_metric =
      (run_task w city t eff .ok now world).terms_metric ∧
    wget (run_task w city t eff (.fail msg) now world).mgr.state.workers
      (toString w) = none ∧
    (run_task w city t eff (.fail msg) now world).mgr.state.batch.worker ≠
      some (toString w) ∧
    worker_loop w city script now (t :: rest) world =
      worker_loop w city script now rest
        (run_task w city t (script t).1 (script t).2 now world) := by
  refine ⟨?_, rfl, ?_, ?_, ?_, ?_, rfl, ?_, ?_, rfl⟩
  · simp only [run_task, task_cleanup_events, task_cleanup_max_events,
      record_event_state, worker_error_payload]
  · simp only [run_task, task_cleanup_term_index, record_event_term_index]
  · simp only [run_task, task_cleanup_progress, record_event_city_index,
      record_event_total_terms, record_event_term_index]
  · simp only [run_task, task_cleanup_workers, record_event_workers]
  · simp only [run_task, task_cleanup_batch, record_event_batch]
  · simp only [run_task, task_cleanup_workers]
    exact wget_wremove _ _
  · simp only [run_task, task_cleanup_batch, record_event_batch]
    split
    · simp
    · rename_i h
      intro he
      rw [he] at h
      simp at h

/-! ### Claim C3: restart re-queues exactly once -/

/-- Claim C3: restarting a slot that holds an in-progress term T puts T
back in the queue exactly once (its count rises by exactly one, neither
duplicated nor lost), the action trace places the re-enqueue strictly
before the slot start, and a warning event is recorded whose payload
carries the restart reason and T's task context. -/
theorem restart_requeues_once (world : OrchWorld) (w : Nat)
    (city reason T : String) (now : Nat) (slot : SlotInfo)
    (hsd : world.shutting_down = false)
    (hslot : slot_get world.slots w = some slot)
    (hterm : slot.current_term = some T) :
    ((restart_worker world w city reason now).1.queue.count T =
      world.queue.count T + 1) ∧
    (restart_worker world w city reason now).2 =
      [OrchAction.cancel w, OrchAction.enqueue T, OrchAction.warn,
       OrchAction.start w] ∧
    (restart_worker world w city reason now).1.mgr.state.events =
      trim_cap world.mgr.max_events (world.mgr.state.events ++
        [event_payload "warning"
          ("Restarting worker " ++ toString w ++ ": " ++ reason) now (some w)
          (restart_context city reason (some T))]) ∧
    dget (event_payload "warning"
        ("Restarting worker " ++ toString w ++ ": " ++ reason) now (some w)
        (restart_context city reason (some T))) "reason" =
      some (JVal.str reason) ∧
    dget (event_payload "warning"
        ("Restarting worker " ++ toString w ++ ": " ++ reason) now (some w)
        (restart_context city reason (some T))) "term" =
      some (JVal.str T) := by
  have hns : ¬(world.shutting_down = true) := by simp [hsd]
  have hrw : restart_worker world w city reason now =
      ({ world with
          queue := world.queue ++ [T],
          slots := slot_set (slot_remove world.slots w) w ⟨none, now⟩,
          mgr := record_event
            (clear_worker (clear_batch world.mgr w now) w now)
            "warning"
            ("Restarting worker " ++ toString w ++ ": " ++ reason)
            (some w) (restart_context city reason (some T)) now },
       [OrchAction.cancel w, OrchAction.enqueue T, OrchAction.warn,
        OrchAction.start w]) := by
    rw [restart_worker, if_neg hns, hslot]
    dsimp only
    rw [hterm]
    rfl
  refine ⟨?_, ?_, ?_, rfl, rfl⟩
  · rw [hrw]
    simp [List.count_append]
  · rw [hrw]
  · rw [hrw]
    show (record_event (clear_worker (clear_batch world.mgr w now) w now)
        _ _ _ _ _).state.events = _
    rw [record_event_state, clear_worker_events, clear_batch_events,
      clear_worker_max_events, clear_batch_max_events]

/-- Witness for claim C3: restarting slot 1 of the concrete world while
it holds "bakery" re-enqueues exactly one "bakery" and emits the
cancel / enqueue / warn / start trace in that order. -/
theorem restart_requeues_once_witness :
    ((restart_worker rworld 1 "Reno" "no heartbeat for 300.0s" 99).1.queue.count
        "bakery" = rworld.queue.count "bakery" + 1) ∧
    (restart_worker rworld 1 "Reno" "no heartbeat for 300.0s" 99).2 =
      [OrchAction.cancel 1, OrchAction.enqueue "bakery", OrchAction.warn,
       OrchAction.start 1] := by
  have h := restart_requeues_once rworld 1 "Reno" "no heartbeat for 300.0s"
    "bakery" 99 ⟨some "bakery", 10⟩ (by decide) (by decide) rfl
  exact ⟨h.1, h.2.1⟩

end MapMonkey
